import Mathlib

/-!
# The user-account service of `internal/user/service.go`

A shallow embedding of the Go package `user` (file `internal/user/service.go`)
together with the parts of the Go libraries it calls: `errors.Wrap` of
`github.com/pkg/errors`, and `time.Time.IsZero` / `time.Time.Format` of the
standard library.

* Go `error` values are the inductive type `errors.error`; a nullable `error`
  result is `Option error`.
* The two collaborators (`hash.Service`, `Repository`) are arbitrary state
  transformers over a world state `σ`.  Every service operation returns an
  `Outcome`: its Go return value, the world state after the call, and the list
  of collaborator calls it made, in order.
* `time.Now()` is a reading `Now : σ → Time` of the world's clock.
* The `context.Context` argument is handed to the collaborators untouched and
  plays no part in any branch of the code, so it is left out.
* The pointer arguments `*RegisterDTO` and `*UpdateDTO` are dereferenced
  unconditionally by the code; they are taken by value.
* A `time.Time` is an instant (seconds and nanoseconds since year 1) with the
  zone its location yields at that instant; `Format` follows the library's
  `nextStdChunk` / `appendFormat` / `absDate` / `appendInt`.
-/

set_option autoImplicit false

/-! ## Package `errors` (github.com/pkg/errors) -/

namespace errors

/-- A non-nil Go `error` value.  `fundamental msg` is a leaf error (what
`errors.New(msg)` builds, or any error value of a collaborator, identified by
its message); `withMessage cause msg` is what `errors.Wrap(cause, msg)` builds
(the stack trace that `Wrap` also records has no effect on `Error()`, `Unwrap`
or `Cause` and is not represented). -/
inductive error where
  | fundamental (msg : String)
  | withMessage (cause : error) (msg : String)
  deriving DecidableEq, Repr

/-- The method `Error()`: a leaf prints its message, a wrapped error prints
`msg + ": " + cause.Error()`. -/
def error.Error : error → String
  | .fundamental msg => msg
  | .withMessage cause msg => msg ++ ": " ++ cause.Error

/-- The function `errors.Wrap(err, message)` for a non-nil `err`. -/
def Wrap (err : error) (message : String) : error :=
  .withMessage err message

/-- The method `Unwrap()` of a wrapped error (`nil` for a leaf). -/
def error.Unwrap : error → Option error
  | .fundamental _ => none
  | .withMessage cause _ => some cause

/-- The function `errors.Cause(err)`: follows the causes down to the leaf. -/
def Cause : error → error
  | .fundamental msg => .fundamental msg
  | .withMessage cause _ => Cause cause

/-- The function `errors.Is(err, target)`: `err` or one of the errors it wraps
is `target` (Go compares the error values; here two errors are the same when
they are built the same way).  This is the sense in which an error "is of
kind" `target`. -/
def Is : error → error → Bool
  | .fundamental msg, target => decide (error.fundamental msg = target)
  | .withMessage cause msg, target =>
    decide (error.withMessage cause msg = target) || Is cause target

end errors

/-! ## Package `time` (standard library) -/

namespace time

/-- The zone a location yields at the instant of a `Time`: its abbreviation and
its offset east of UTC in seconds (what `Location.lookup` returns, and what
`time.FixedZone(name, offset)` fixes for every instant). -/
structure Zone where
  name : String
  offset : Int
  deriving DecidableEq, Repr

/-- A `time.Time`: seconds and nanoseconds since January 1, year 1, 00:00:00
UTC, and the location.  `loc = none` is the nil location pointer, which means
UTC (`Time.setLoc` stores nil for `time.UTC`); `loc = some z` is a location
whose zone at this instant is `z`.  The zero value `Time{}` is `{}`. -/
structure Time where
  sec : Int := 0
  nsec : Nat := 0
  loc : Option Zone := none
  deriving DecidableEq, Repr

/-- The method `IsZero`: `t.sec() == 0 && t.nsec() == 0`. -/
def Time.IsZero (t : Time) : Bool :=
  decide (t.sec = 0) && decide (t.nsec = 0)

def secondsPerMinute : Nat := 60
def secondsPerHour : Nat := 60 * secondsPerMinute
def secondsPerDay : Nat := 24 * secondsPerHour
def daysPer400Years : Nat := 365 * 400 + 97
def daysPer100Years : Nat := 365 * 100 + 24
def daysPer4Years : Nat := 365 * 4 + 1

/-- The year of absolute time zero. -/
def absoluteZeroYear : Int := -292277022399

/-- The constant `internalToAbsolute = -(absoluteZeroYear - 1) * 365.2425 *
secondsPerDay`: offset from seconds since year 1 to absolute seconds. -/
def internalToAbsolute : Int := 9223371966579724800

/-- The constant `unixToInternal`: seconds from year 1 to the Unix epoch. -/
def unixToInternal : Int := (1969 * 365 + 1969 / 4 - 1969 / 100 + 1969 / 400) * 86400

/-- The method `locabs`: the zone abbreviation, the zone offset and the
absolute time (a `uint64`, seconds since the absolute zero year, shifted into
the zone) used by the formatting code. -/
def Time.locabs (t : Time) : String × Int × Nat :=
  match t.loc with
  | none => ("UTC", 0, ((t.sec + internalToAbsolute) % 2 ^ 64).toNat)
  | some z => (z.name, z.offset, ((t.sec + z.offset + internalToAbsolute) % 2 ^ 64).toNat)

/-- The function `absClock`: hour, minute and second within the day. -/
def absClock (abs : Nat) : Nat × Nat × Nat :=
  let sec := abs % secondsPerDay
  let hour := sec / secondsPerHour
  let sec := sec - hour * secondsPerHour
  let min := sec / secondsPerMinute
  let sec := sec - min * secondsPerMinute
  (hour, min, sec)

/-- The function `isLeap`. -/
def isLeap (year : Int) : Bool :=
  decide (year.tmod 4 = 0) && (decide (year.tmod 100 ≠ 0) || decide (year.tmod 400 = 0))

/-- The table `daysBefore`: days in a non-leap year before month `m + 1`. -/
def daysBefore : List Int :=
  [0, 31, 31 + 28, 31 + 28 + 31, 31 + 28 + 31 + 30, 31 + 28 + 31 + 30 + 31,
   31 + 28 + 31 + 30 + 31 + 30, 31 + 28 + 31 + 30 + 31 + 30 + 31,
   31 + 28 + 31 + 30 + 31 + 30 + 31 + 31, 31 + 28 + 31 + 30 + 31 + 30 + 31 + 31 + 30,
   31 + 28 + 31 + 30 + 31 + 30 + 31 + 31 + 30 + 31,
   31 + 28 + 31 + 30 + 31 + 30 + 31 + 31 + 30 + 31 + 30,
   31 + 28 + 31 + 30 + 31 + 30 + 31 + 31 + 30 + 31 + 30 + 31]

/-- The function `absDate(abs, full)`: year, month (January is 1), day of the
month and day of the year (from 0) of an absolute time; when `full` is false
only the year and the day of the year are computed and the month and the day
are left at zero. -/
def absDate (abs : Nat) (full : Bool) : Int × Int × Int × Int :=
  -- Split into time and day.
  let d := abs / secondsPerDay
  -- Account for 400 year cycles.
  let n := d / daysPer400Years
  let y := 400 * n
  let d := d - daysPer400Years * n
  -- Cut off 100-year cycles.
  let n := d / daysPer100Years
  let n := n - (n >>> 2)
  let y := y + 100 * n
  let d := d - daysPer100Years * n
  -- Cut off 4-year cycles.
  let n := d / daysPer4Years
  let y := y + 4 * n
  let d := d - daysPer4Years * n
  -- Cut off years within a 4-year cycle.
  let n := d / 365
  let n := n - (n >>> 2)
  let y := y + n
  let d := d - 365 * n
  let year : Int := (y : Int) + absoluteZeroYear
  let yday : Int := (d : Int)
  if !full then (year, 0, 0, yday)
  else
    let day := yday
    if isLeap year && decide (day = 31 + 29 - 1) then
      -- Leap day.
      (year, 2, 29, yday)
    else
      -- After leap day; pretend it wasn't there.
      let day := if isLeap year && decide (day > 31 + 29 - 1) then day - 1 else day
      -- Estimate month on assumption that every month has 31 days.
      -- The estimate may be too low by at most one month, so adjust.
      let month := day.tdiv 31
      let last := daysBefore.getD (month + 1).toNat 0
      let (month, first) :=
        if day ≥ last then (month + 1, last) else (month, daysBefore.getD month.toNat 0)
      (year, month + 1, day - first + 1, yday)

def longMonthNames : List String :=
  ["January", "February", "March", "April", "May", "June", "July", "August",
   "September", "October", "November", "December"]

/-- The decimal digits of `u`, most significant first: the loop of `appendInt`
and `fmtInt` that fills a buffer from the right (`'0' + u%10`, `u /= 10`, until
`u < 10`).  The first argument bounds the number of digits produced. -/
def decimal : Nat → Nat → List Char
  | 0, _ => []
  | fuel + 1, u =>
    if u < 10 then [Char.ofNat (48 + u)]
    else decimal fuel (u / 10) ++ [Char.ofNat (48 + u % 10)]

/-- The function `appendInt(b, x, width)`: appends the decimal form of `x`,
padded with leading zeros to at least `width` digits (a minus sign first when
`x` is negative). -/
def appendInt (b : List Char) (x : Int) (width : Nat) : List Char :=
  let b := if x < 0 then b ++ ['-'] else b
  let u := x.natAbs
  let buf := decimal (u + 1) u
  b ++ List.replicate (width - buf.length) '0' ++ buf

/-- The method `Month.String`: the English name of the month, or
`%!Month(n)` when `n` is not a month. -/
def Month.String (m : Int) : String :=
  if 1 ≤ m ∧ m ≤ 12 then longMonthNames.getD (m - 1).toNat ""
  else "%!Month(" ++ String.mk (decimal (m.natAbs + 1) m.natAbs) ++ ")"

/-- The layout elements recognised by `nextStdChunk` (the `std...` constants).
The numeric zone offsets (`-0700`, `Z07:00`, ...) and the fractional seconds
(`.000`, `,999`, ...) are not represented: the model is exact for every layout
that contains none of the characters `-`, `Z`, `.` and `,`. -/
inductive Std where
  | stdLongMonth | stdMonth | stdNumMonth | stdZeroMonth
  | stdLongWeekDay | stdWeekDay
  | stdDay | stdUnderDay | stdZeroDay
  | stdUnderYearDay | stdZeroYearDay
  | stdHour | stdHour12 | stdZeroHour12
  | stdMinute | stdZeroMinute
  | stdSecond | stdZeroSecond
  | stdLongYear | stdYear
  | stdPM | stdpm
  | stdTZ
  deriving DecidableEq, Repr

/-- The table `std0x`, indexed by the digit after a `0` minus one. -/
def std0x : List Std :=
  [.stdZeroMonth, .stdZeroDay, .stdZeroHour12, .stdZeroMinute, .stdZeroSecond, .stdYear]

/-- The function `startsWithLowerCase`. -/
def startsWithLowerCase : List Char → Bool
  | [] => false
  | c :: _ => decide ('a' ≤ c) && decide (c ≤ 'z')

/-- The function `nextStdChunk`: scans the layout for the first layout element
and returns the literal text before it, the element (`none` is the Go value 0:
no element left), and the text after it.  The first argument is the text
already scanned (`layout[0:i]`). -/
def nextStdChunk (pre : List Char) : List Char → List Char × Option Std × List Char
  | [] => (pre, none, [])
  | c :: rest =>
    let layout := c :: rest
    let skip := nextStdChunk (pre ++ [c]) rest
    if c = 'J' then
      -- January, Jan
      if layout.take 3 = "Jan".toList then
        if layout.take 7 = "January".toList then (pre, some .stdLongMonth, layout.drop 7)
        else if !startsWithLowerCase (layout.drop 3) then (pre, some .stdMonth, layout.drop 3)
        else skip
      else skip
    else if c = 'M' then
      -- Monday, Mon, MST
      if layout.take 3 = "Mon".toList then
        if layout.take 6 = "Monday".toList then (pre, some .stdLongWeekDay, layout.drop 6)
        else if !startsWithLowerCase (layout.drop 3) then (pre, some .stdWeekDay, layout.drop 3)
        else skip
      else if layout.take 3 = "MST".toList then (pre, some .stdTZ, layout.drop 3)
      else skip
    else if c = '0' then
      -- 01, 02, 03, 04, 05, 06, 002
      match rest with
      | c1 :: rest1 =>
        if '1' ≤ c1 ∧ c1 ≤ '6' then
          (pre, std0x.get? (c1.toNat - '1'.toNat), rest1)
        else if layout.take 3 = "002".toList then (pre, some .stdZeroYearDay, layout.drop 3)
        else skip
      | [] => skip
    else if c = '1' then
      -- 15, 1
      if layout.take 2 = "15".toList then (pre, some .stdHour, layout.drop 2)
      else (pre, some .stdNumMonth, rest)
    else if c = '2' then
      -- 2006, 2
      if layout.take 4 = "2006".toList then (pre, some .stdLongYear, layout.drop 4)
      else (pre, some .stdDay, rest)
    else if c = '_' then
      -- _2, _2006, __2
      if layout.take 2 = "_2".toList then
        -- _2006 is really a literal _, followed by stdLongYear
        if layout.take 5 = "_2006".toList then (pre ++ ['_'], some .stdLongYear, layout.drop 5)
        else (pre, some .stdUnderDay, layout.drop 2)
      else if layout.take 3 = "__2".toList then (pre, some .stdUnderYearDay, layout.drop 3)
      else skip
    else if c = '3' then (pre, some .stdHour12, rest)
    else if c = '4' then (pre, some .stdMinute, rest)
    else if c = '5' then (pre, some .stdSecond, rest)
    else if c = 'P' then
      if layout.take 2 = "PM".toList then (pre, some .stdPM, layout.drop 2) else skip
    else if c = 'p' then
      if layout.take 2 = "pm".toList then (pre, some .stdpm, layout.drop 2) else skip
    else skip

def longDayNames : List String :=
  ["Sunday", "Monday", "Tuesday", "Wednesday", "Thursday", "Friday", "Saturday"]

/-- The function `absWeekday`: January 1 of the absolute year was a Monday. -/
def absWeekday (abs : Nat) : Nat :=
  let sec := (abs + 1 * secondsPerDay) % (7 * secondsPerDay)
  sec / secondsPerDay

/-- One case of the `switch std & stdMask` of `Time.appendFormat`: appends the
rendering of one layout element of the time with zone abbreviation `name`, zone
offset `offset` and absolute time `abs`. -/
def appendStd (name : String) (offset : Int) (abs : Nat) (std : Std) (b : List Char) :
    List Char :=
  let (year, month, day, yday0) := absDate abs true
  let yday := yday0 + 1
  let (hour, min, sec) := absClock abs
  match std with
  | .stdYear =>
    let y := if year < 0 then -year else year
    appendInt b (y.tmod 100) 2
  | .stdLongYear => appendInt b year 4
  | .stdMonth => b ++ (Month.String month).toList.take 3
  | .stdLongMonth => b ++ (Month.String month).toList
  | .stdNumMonth => appendInt b month 0
  | .stdZeroMonth => appendInt b month 2
  | .stdWeekDay => b ++ (longDayNames.getD (absWeekday abs) "").toList.take 3
  | .stdLongWeekDay => b ++ (longDayNames.getD (absWeekday abs) "").toList
  | .stdDay => appendInt b day 0
  | .stdUnderDay => appendInt (if day < 10 then b ++ [' '] else b) day 0
  | .stdZeroDay => appendInt b day 2
  | .stdUnderYearDay =>
    let b := if yday < 100 then (if yday < 10 then b ++ [' ', ' '] else b ++ [' ']) else b
    appendInt b yday 0
  | .stdZeroYearDay => appendInt b yday 3
  | .stdHour => appendInt b hour 2
  | .stdHour12 =>
    -- Noon is 12PM, midnight is 12AM.
    let hr := hour % 12
    appendInt b (if hr = 0 then 12 else hr : Nat) 0
  | .stdZeroHour12 =>
    let hr := hour % 12
    appendInt b (if hr = 0 then 12 else hr : Nat) 2
  | .stdMinute => appendInt b min 0
  | .stdZeroMinute => appendInt b min 2
  | .stdSecond => appendInt b sec 0
  | .stdZeroSecond => appendInt b sec 2
  | .stdPM => if hour ≥ 12 then b ++ "PM".toList else b ++ "AM".toList
  | .stdpm => if hour ≥ 12 then b ++ "pm".toList else b ++ "am".toList
  | .stdTZ =>
    if name ≠ "" then b ++ name.toList
    else
      -- No time zone known for this time, but we must print one.
      -- Use the -0700 format.
      let zone := offset.tdiv 60 -- convert to minutes
      let b := if zone < 0 then b ++ ['-'] else b ++ ['+']
      let zone := if zone < 0 then -zone else zone
      let b := appendInt b (zone.tdiv 60) 2
      appendInt b (zone.tmod 60) 2

/-- The loop of `Time.appendFormat`: each iteration copies the literal text up
to the next layout element and renders that element.  Every iteration that
continues consumes at least one character of the layout, so a first argument of
the layout's length lets the loop run to its end. -/
def appendFormatLoop (name : String) (offset : Int) (abs : Nat) :
    Nat → List Char → List Char → List Char
  | 0, b, _ => b
  | fuel + 1, b, layout =>
    if layout = [] then b
    else
      let (pre, std, suffix) := nextStdChunk [] layout
      let b := b ++ pre
      match std with
      | none => b
      | some std => appendFormatLoop name offset abs fuel (appendStd name offset abs std b) suffix

/-- The method `Time.Format(layout)`. -/
def Time.Format (t : Time) (layout : String) : String :=
  let (name, offset, abs) := t.locabs
  String.mk (appendFormatLoop name offset abs layout.length [] layout.toList)

end time

/-! ## The timestamp rendering in the words of the specification -/

namespace time

/-- The method `Time.abs`: the absolute time of `t` in its zone. -/
def Time.abs (t : Time) : Nat := t.locabs.2.2

/-- The method `Time.Zone`: abbreviation and offset of the zone in force. -/
def Time.Zone (t : Time) : String × Int := (t.locabs.1, t.locabs.2.1)

/-- The method `Time.Date`: year, month and day of `t` in its zone. -/
def Time.Date (t : Time) : Int × Int × Int :=
  ((absDate t.abs true).1, (absDate t.abs true).2.1, (absDate t.abs true).2.2.1)

/-- The method `Time.Clock`: hour, minute and second of `t` in its zone. -/
def Time.Clock (t : Time) : Nat × Nat × Nat := absClock t.abs

/-- The month and the day of the month that `absDate` derives from the day of
the year `yday` of a year that is (`leap`) or is not a leap year: the last part
of `absDate`, named for use in the proofs. -/
def monthDay (leap : Bool) (yday : Int) : Int × Int :=
  if leap && decide (yday = 31 + 29 - 1) then (2, 29)
  else
    let day := if leap && decide (yday > 31 + 29 - 1) then yday - 1 else yday
    let month := day.tdiv 31
    let last := daysBefore.getD (month + 1).toNat 0
    let (month, first) :=
      if day ≥ last then (month + 1, last) else (month, daysBefore.getD month.toNat 0)
    (month + 1, day - first + 1)

/-- The three-letter month abbreviations, January first. -/
def monthAbbreviations : List String :=
  ["Jan", "Feb", "Mar", "Apr", "May", "Jun", "Jul", "Aug", "Sep", "Oct", "Nov", "Dec"]

/-- A number below 100 as two decimal digits, zero-padded. -/
def twoDigits (n : Nat) : String :=
  String.mk [Nat.digitChar (n / 10), Nat.digitChar (n % 10)]

/-- A number in decimal, zero-padded to at least two digits. -/
def zeroPadded (n : Nat) : String :=
  if n < 10 then "0" ++ toString n else toString n

/-- The date and clock part `DD Mon YY HH:MM` of the specified rendering:
zero-padded two-digit day, three-letter month abbreviation, the last two digits
of the year, zero-padded 24-hour hour and minute, separated by single spaces
(the seconds and nanoseconds of `t` are not used). -/
def specDateClock (t : Time) : String :=
  twoDigits t.Date.2.2.toNat ++ " " ++ monthAbbreviations.getD (t.Date.2.1 - 1).toNat "" ++ " " ++
    twoDigits (t.Date.1.natAbs % 100) ++ " " ++
    twoDigits t.Clock.1 ++ ":" ++ twoDigits t.Clock.2.1

/-- The rendering `DD Mon YY HH:MM TZ` as the specification words it: the date
and clock part, a space, and the timezone abbreviation. -/
def specTimestamp (t : Time) : String :=
  specDateClock t ++ " " ++ t.Zone.1

/-- A zone offset as `+hhmm` or `-hhmm`: the offset is cut to whole minutes
(towards zero), the sign is that of the result, the hours are zero-padded to at
least two digits and the minutes to two. -/
def numericOffset (offset : Int) : String :=
  (if offset.tdiv 60 < 0 then "-" else "+") ++
    zeroPadded ((offset.tdiv 60).natAbs / 60) ++ twoDigits ((offset.tdiv 60).natAbs % 60)

/-- The rendering that `Format` produces for the layout of the service: as
`specTimestamp`, except that a zone without an abbreviation is rendered by its
numeric offset. -/
def layoutTimestamp (t : Time) : String :=
  specDateClock t ++ " " ++ (if t.Zone.1 = "" then numericOffset t.Zone.2 else t.Zone.1)

end time

/-! ## Package `hash` -/

namespace hash

/-- Modelled from the spec: the interface `hash.Service` (§4.2), declared in
package `internal/hash`, as far as the user service consumes it: the one
capability `Encrypt(plaintext) (hashedValue, error)`.  An implementation may
read and change the world state. -/
structure Service (σ : Type) where
  Encrypt : String → σ → Except errors.error String × σ

end hash

/-! ## Package `user` -/

namespace user

open errors time

/-- Modelled from the spec: the struct `User` (§3), declared in a file of
package `user` other than `service.go`; the fields are the ones §3 lists and
`service.go` names.  The defaults are the Go zero values, so a structure
instance that names some fields reads like the Go composite literal. -/
structure User where
  ID : Int := 0
  Username : String := ""
  Password : String := ""
  JoinedAt : Time := {}
  LastLogin : Time := {}
  deriving DecidableEq, Repr

/-- Modelled from the spec: the struct `RegisterDTO` (RegisterInput of §3). -/
structure RegisterDTO where
  Username : String := ""
  Password : String := ""
  deriving DecidableEq, Repr

/-- Modelled from the spec: the struct `UpdateDTO` (UpdateInput of §3). -/
structure UpdateDTO where
  Username : String := ""
  deriving DecidableEq, Repr

/-- Modelled from the spec: the struct `DTO` (UserView of §3): exactly the
three fields that `FindByID` fills in. -/
structure DTO where
  Username : String := ""
  LastLogin : String := ""
  JoinedAt : String := ""
  deriving DecidableEq, Repr

/-- Modelled from the spec: the struct `CredentialsDTO` (CredentialsView of
§3). -/
structure CredentialsDTO where
  ID : Int := 0
  Username : String := ""
  Password : String := ""
  JoinedAt : String := ""
  LastLogin : String := ""
  deriving DecidableEq, Repr

/-- Modelled from the spec: the interface `Repository` (§4.3), declared in a
file of package `user` other than `service.go`, with the five methods that
`service.go` calls.  `Save` and `Update` receive a pointer to a `User` that the
service never reads again, so only the value passed in matters.  The finders
return `(*User, error)`; by the Go convention a nil error comes with a non-nil
user, which is the `Except.ok` case. -/
structure Repository (σ : Type) where
  Save : User → σ → Option error × σ
  Update : User → σ → Option error × σ
  FindByID : Int → σ → Except error User × σ
  FindByUsername : String → σ → Except error User × σ
  DeleteByID : Int → σ → Option error × σ

/-- A call of the service to one of its collaborators, with its argument. -/
inductive Call where
  | Encrypt (plaintext : String)
  | Save (u : User)
  | Update (u : User)
  | FindByID (id : Int)
  | FindByUsername (username : String)
  | DeleteByID (id : Int)
  deriving DecidableEq, Repr

/-- What a service operation leaves behind: its Go return value, the world
state after it, and the collaborator calls it made, in order. -/
structure Outcome (σ α : Type) where
  ret : α
  state : σ
  calls : List Call

/-- The struct `service`. -/
structure service (σ : Type) where
  hashSvc : hash.Service σ
  repo : Repository σ

/-- The constructor `NewService`. -/
def NewService {σ : Type} (hashSvc : hash.Service σ) (repo : Repository σ) : service σ :=
  { hashSvc := hashSvc, repo := repo }

section operations

variable {σ : Type}

/-- The method `Register`.  `ErrValidation` is the package's error variable of
that name (declared outside `service.go`, non-nil); `Now` reads the clock, as
`time.Now()` does, in the world state reached when the `User` is built. -/
def Register (ErrValidation : error) (Now : σ → Time) (s : service σ) (dto : RegisterDTO)
    (st : σ) : Outcome σ (Option error) :=
  if dto.Username = "" then
    ⟨some (Wrap ErrValidation "username cannot be empty"), st, []⟩
  else if dto.Password = "" then
    ⟨some (Wrap ErrValidation "password cannot be empty"), st, []⟩
  else
    match s.hashSvc.Encrypt dto.Password st with
    | (.error err, st1) =>
      ⟨some (Wrap ErrValidation err.Error), st1, [.Encrypt dto.Password]⟩
    | (.ok hashedPassword, st1) =>
      let user : User :=
        { Username := dto.Username
          Password := hashedPassword
          JoinedAt := Now st1 }
      match s.repo.Save user st1 with
      | (some err, st2) => ⟨some err, st2, [.Encrypt dto.Password, .Save user]⟩
      | (none, st2) => ⟨none, st2, [.Encrypt dto.Password, .Save user]⟩

/-- The method `SetUsername`. -/
def SetUsername (ErrValidation : error) (s : service σ) (id : Int) (dto : UpdateDTO)
    (st : σ) : Outcome σ (Option error) :=
  if dto.Username = "" then
    ⟨some (Wrap ErrValidation "username cannot be empty"), st, []⟩
  else
    let u : User := { ID := id, Username := dto.Username }
    match s.repo.Update u st with
    | (some err, st1) => ⟨some err, st1, [.Update u]⟩
    | (none, st1) => ⟨none, st1, [.Update u]⟩

/-- The method `FindByID`.  The Go result `(*DTO, error)` is a pair of
options. -/
def FindByID (s : service σ) (id : Int) (st : σ) : Outcome σ (Option DTO × Option error) :=
  match s.repo.FindByID id st with
  | (.error err, st1) => ⟨(none, some err), st1, [.FindByID id]⟩
  | (.ok user, st1) =>
    let dto : DTO :=
      { Username := user.Username
        LastLogin := user.LastLogin.Format "02 Jan 06 15:04 MST"
        JoinedAt := user.JoinedAt.Format "02 Jan 06 15:04 MST" }
    ⟨(some dto, none), st1, [.FindByID id]⟩

/-- The method `FindCredentialsByUsername`. -/
def FindCredentialsByUsername (s : service σ) (username : String) (st : σ) :
    Outcome σ (Option CredentialsDTO × Option error) :=
  match s.repo.FindByUsername username st with
  | (.error err, st1) => ⟨(none, some err), st1, [.FindByUsername username]⟩
  | (.ok user, st1) =>
    ⟨(some
        { ID := user.ID
          Username := user.Username
          Password := user.Password
          JoinedAt := user.JoinedAt.Format "02 Jan 06 15:04 MST"
          LastLogin := user.LastLogin.Format "02 Jan 06 15:04 MST" }, none),
      st1, [.FindByUsername username]⟩

/-- The method `SetLastLogin`. -/
def SetLastLogin (ErrValidation : error) (s : service σ) (id : Int) (lastLogin : Time)
    (st : σ) : Outcome σ (Option error) :=
  if lastLogin.IsZero then
    ⟨some (Wrap ErrValidation "lastLogin cannot be empty"), st, []⟩
  else
    let u : User := { ID := id, LastLogin := lastLogin }
    match s.repo.Update u st with
    | (some err, st1) => ⟨some err, st1, [.Update u]⟩
    | (none, st1) => ⟨none, st1, [.Update u]⟩

/-- The method `Delete`. -/
def Delete (s : service σ) (id : Int) (st : σ) : Outcome σ (Option error) :=
  match s.repo.DeleteByID id st with
  | (some err, st1) => ⟨some err, st1, [.DeleteByID id]⟩
  | (none, st1) => ⟨none, st1, [.DeleteByID id]⟩

end operations

/-! ### An in-memory repository and a hash service, for concrete runs -/

/-- Modelled from the spec: the error kind `NotFoundError` of §7. -/
def ErrNotFound : error := .fundamental "not found"

/-- Modelled from the spec: the error kind `ConflictError` of §7. -/
def ErrConflict : error := .fundamental "conflict"

/-- A value for the package variable `ErrValidation` in concrete runs. -/
def exampleErrValidation : error := .fundamental "validation error"

/-- The state of the in-memory repository: the stored users and the last id
handed out. -/
structure MemState where
  users : List User := []
  lastID : Int := 0
  deriving DecidableEq, Repr

/-- Modelled from the spec: a repository with the contract of §4.3.  `save`
assigns the next id (1 for the first user) and fails with a conflict on a
duplicate username; `update` applies only the non-default fields among username
and lastLogin, keyed by id; the finders and `deleteByID` fail with not-found
when there is no such record. -/
def memRepo : Repository MemState where
  Save := fun u st =>
    if st.users.any (fun v => v.Username = u.Username) then (some ErrConflict, st)
    else (none, { users := st.users ++ [{ u with ID := st.lastID + 1 }], lastID := st.lastID + 1 })
  Update := fun p st =>
    if st.users.any (fun v => v.ID = p.ID) then
      (none,
        { st with
          users := st.users.map (fun v =>
            if v.ID = p.ID then
              { v with
                Username := if p.Username = "" then v.Username else p.Username
                LastLogin := if p.LastLogin.IsZero then v.LastLogin else p.LastLogin }
            else v) })
    else (some ErrNotFound, st)
  FindByID := fun id st =>
    match st.users.find? (fun v => v.ID = id) with
    | some u => (.ok u, st)
    | none => (.error ErrNotFound, st)
  FindByUsername := fun name st =>
    match st.users.find? (fun v => v.Username = name) with
    | some u => (.ok u, st)
    | none => (.error ErrNotFound, st)
  DeleteByID := fun id st =>
    if st.users.any (fun v => v.ID = id) then
      (none, { st with users := st.users.filter (fun v => v.ID ≠ id) })
    else (some ErrNotFound, st)

/-- A hash service for concrete runs: it fails on passwords longer than 72
characters and otherwise tags the plaintext. -/
def exampleHash : hash.Service MemState where
  Encrypt := fun p st =>
    if p.length > 72 then (.error (.fundamental "password too long"), st)
    else (.ok ("hash(" ++ p ++ ")"), st)

/-- The service over the in-memory repository and the example hash service. -/
def exampleService : service MemState := NewService exampleHash memRepo

/-- The instant 2006-01-02T15:04:00 UTC. -/
def exampleTime : Time := { sec := 1136214240 + unixToInternal }

/-- A clock for concrete runs: it always reads `exampleTime`. -/
def exampleNow : MemState → Time := fun _ => exampleTime

/-- A state of the in-memory repository that holds alice as user 1. -/
def exampleStored : MemState :=
  { users := [{ ID := 1, Username := "alice", Password := "hash(secret)",
                JoinedAt := exampleTime }],
    lastID := 1 }

/-- A state of the in-memory repository that holds alice with another password
hash. -/
def exampleStoredOther : MemState :=
  { users := [{ ID := 1, Username := "alice", Password := "hash(hunter2)",
                JoinedAt := exampleTime }],
    lastID := 1 }

/-- The example instant as read in a zone one hour east of UTC that has no
abbreviation (what `time.FixedZone("", 3600)` gives). -/
def exampleTimeUnnamedZone : Time := { sec := exampleTime.sec, loc := some ⟨"", 3600⟩ }

/-- A state of the in-memory repository that holds alice with a joinedAt in a
zone without abbreviation. -/
def exampleStoredUnnamedZone : MemState :=
  { users := [{ ID := 1, Username := "alice", Password := "hash(secret)",
                JoinedAt := exampleTimeUnnamedZone }],
    lastID := 1 }

end user

/-! ## Properties of the calendar computation -/

namespace time

theorem tmod_eq_zero_iff (a b : Int) : a.tmod b = 0 ↔ a % b = 0 := by
  constructor
  · intro h
    exact Int.emod_eq_zero_of_dvd (Int.dvd_of_tmod_eq_zero h)
  · intro h
    exact Int.tmod_eq_zero_of_dvd (Int.dvd_of_emod_eq_zero h)

theorem isLeap_iff (year : Int) :
    isLeap year = true ↔ year % 4 = 0 ∧ (year % 100 ≠ 0 ∨ year % 400 = 0) := by
  simp [isLeap, tmod_eq_zero_iff]

/-- The year and day-of-year split of `absDate`: the day of the year is at most
365, and it is 365 only in a leap year. -/
theorem yearDay_bounds (D n1 d1 n2 d2 n3 d3 n4 d4 : Nat)
    (h1 : n1 = D / 146097) (h2 : d1 = D - 146097 * n1)
    (h3 : n2 = d1 / 36524 - d1 / 36524 / 4) (h4 : d2 = d1 - 36524 * n2)
    (h5 : n3 = d2 / 1461) (h6 : d3 = d2 - 1461 * n3)
    (h7 : n4 = d3 / 365 - d3 / 365 / 4) (h8 : d4 = d3 - 365 * n4) :
    d4 ≤ 365 ∧
    (d4 = 365 →
      (((400 * n1 + 100 * n2 + 4 * n3 + n4 : Nat) : Int) + absoluteZeroYear) % 4 = 0 ∧
      ((((400 * n1 + 100 * n2 + 4 * n3 + n4 : Nat) : Int) + absoluteZeroYear) % 100 ≠ 0 ∨
       (((400 * n1 + 100 * n2 + 4 * n3 + n4 : Nat) : Int) + absoluteZeroYear) % 400 = 0)) := by
  have hd1 : d1 < 146097 := by omega
  have hd2 : d2 ≤ 36524 ∧ (n2 < 3 → d2 < 36524) ∧ n2 ≤ 3 := by omega
  have hd3 : d3 ≤ 1460 ∧ n3 ≤ 25 ∧ (d2 < 36524 → n3 ≤ 24 ∧ (n3 = 24 → d3 < 1460)) := by omega
  have hd4 : d4 ≤ 365 ∧ n4 ≤ 3 ∧ (d4 = 365 → n4 = 3 ∧ d3 = 1460) := by omega
  refine ⟨hd4.1, fun h => ?_⟩
  obtain ⟨hn4, hd3e⟩ := hd4.2.2 h
  have hcase : n3 < 24 ∨ (n3 = 24 ∧ n2 = 3) ∨ n3 = 25 := by omega
  simp only [absoluteZeroYear]
  subst hn4
  rcases hcase with hc | ⟨hc, hc2⟩ | hc
  · omega
  · subst hc hc2
    omega
  · omega

/-- The year and the day of the year that `absDate` computes: the day is
between 0 and 365, and it is 365 only in a leap year. -/
theorem absDate_yday (abs : Nat) :
    0 ≤ (absDate abs false).2.2.2 ∧ (absDate abs false).2.2.2 ≤ 365 ∧
    ((absDate abs false).2.2.2 = 365 → isLeap (absDate abs false).1 = true) := by
  have h := yearDay_bounds (abs / secondsPerDay) _ _ _ _ _ _ _ _ rfl rfl rfl rfl rfl rfl rfl rfl
  simp only [absDate, Bool.not_false, if_true, Nat.shiftRight_eq_div_pow, daysPer400Years,
    daysPer100Years, daysPer4Years, isLeap_iff]
  norm_num only at h ⊢
  refine ⟨?_, ?_, ?_⟩
  · exact Int.natCast_nonneg _
  · exact_mod_cast h.1
  · intro h365
    exact h.2 (by exact_mod_cast h365)

/-- The full result of `absDate` in terms of its year and day of the year. -/
theorem absDate_full (abs : Nat) :
    absDate abs true =
      ((absDate abs false).1,
        (monthDay (isLeap (absDate abs false).1) (absDate abs false).2.2.2).1,
        (monthDay (isLeap (absDate abs false).1) (absDate abs false).2.2.2).2,
        (absDate abs false).2.2.2) := by
  have h : ∀ c : Bool, ∀ a b : Int × Int × Int × Int, ∀ p q : Int × Int, ∀ y d : Int,
      a = (y, p.1, p.2, d) → b = (y, q.1, q.2, d) →
      (if c then a else b) = (y, (if c then p else q).1, (if c then p else q).2, d) := by
    intro c a b p q y d ha hb
    cases c <;> simp [ha, hb]
  exact h _ _ _ _ _ _ _ rfl rfl

/-- The month estimate of `absDate` yields a month between 1 and 12 and a day
of the month between 1 and 31. -/
theorem monthDay_bounds (leap : Bool) (yday : Int) (h0 : 0 ≤ yday) (h1 : yday ≤ 365)
    (h2 : yday = 365 → leap = true) :
    1 ≤ (monthDay leap yday).1 ∧ (monthDay leap yday).1 ≤ 12 ∧
    1 ≤ (monthDay leap yday).2 ∧ (monthDay leap yday).2 ≤ 31 := by
  unfold monthDay
  by_cases hl : (leap && decide (yday = 31 + 29 - 1)) = true
  · rw [if_pos hl]
    decide
  · rw [if_neg hl]
    obtain ⟨day, hday⟩ : ∃ day : Int,
        (if (leap && decide (yday > 31 + 29 - 1)) = true then yday - 1 else yday) = day :=
      ⟨_, rfl⟩
    have hd0 : 0 ≤ day := by
      rw [← hday]; split_ifs with hc
      · simp at hc; omega
      · exact h0
    have hd1 : day ≤ 364 := by
      rw [← hday]; split_ifs with hc
      · omega
      · cases leap
        · have := h2
          simp at this
          omega
        · simp at hc hl
          omega
    simp only [hday]
    rw [Int.tdiv_eq_ediv hd0 (by norm_num)]
    obtain ⟨m, hm⟩ : ∃ m : Int, day / 31 = m := ⟨_, rfl⟩
    rw [hm]
    have hm0 : 0 ≤ m := by omega
    have hm1 : m ≤ 11 := by omega
    interval_cases m <;> simp [daysBefore] <;> split_ifs <;> simp <;> omega

theorem absDate_bounds (abs : Nat) :
    1 ≤ (absDate abs true).2.1 ∧ (absDate abs true).2.1 ≤ 12 ∧
    1 ≤ (absDate abs true).2.2.1 ∧ (absDate abs true).2.2.1 ≤ 31 := by
  rw [absDate_full]
  obtain ⟨h0, h1, h2⟩ := absDate_yday abs
  exact monthDay_bounds _ _ h0 h1 h2

theorem absClock_bounds (abs : Nat) : (absClock abs).1 < 24 ∧ (absClock abs).2.1 < 60 := by
  simp only [absClock, secondsPerDay, secondsPerHour, secondsPerMinute]
  omega

end time

/-! ## Properties of the formatting code -/

namespace time

theorem appendInt_append (b : List Char) (x : Int) (width : Nat) :
    appendInt b x width = b ++ appendInt [] x width := by
  unfold appendInt
  split_ifs <;> simp

theorem digit_eq_digitChar (n : Nat) (h : n < 10) : Char.ofNat (48 + n) = Nat.digitChar n := by
  interval_cases n <;> rfl

theorem decimal_toDigitsCore (fuel : Nat) :
    ∀ n acc, n < fuel → Nat.toDigitsCore 10 fuel n acc = decimal fuel n ++ acc := by
  induction fuel with
  | zero => intro n acc h; omega
  | succ f ih =>
    intro n acc h
    by_cases hn : n < 10
    · have h0 : n / 10 = 0 := by omega
      have h1 : n % 10 = n := by omega
      simp [Nat.toDigitsCore, decimal, hn, h0, h1, digit_eq_digitChar n hn]
    · have h0 : n / 10 ≠ 0 := by omega
      have h1 : n / 10 < f := by omega
      have h2 : n % 10 < 10 := by omega
      simp [Nat.toDigitsCore, decimal, hn, h0, ih _ _ h1, digit_eq_digitChar _ h2]

theorem decimal_eq_toDigits (n : Nat) : decimal (n + 1) n = Nat.toDigits 10 n := by
  simp [Nat.toDigits, decimal_toDigitsCore (n + 1) n [] (by omega)]

theorem decimal_ne_nil (fuel n : Nat) : decimal (fuel + 1) n ≠ [] := by
  unfold decimal
  split_ifs <;> simp

theorem decimal_length (n : Nat) :
    (n < 10 → (decimal (n + 1) n).length = 1) ∧ (10 ≤ n → 2 ≤ (decimal (n + 1) n).length) := by
  constructor
  · intro h
    simp [decimal, h]
  · intro h
    obtain ⟨k, rfl⟩ : ∃ k, n = k + 1 := ⟨n - 1, by omega⟩
    have hne := decimal_ne_nil k ((k + 1) / 10)
    have hpos : 0 < (decimal (k + 1) ((k + 1) / 10)).length := List.length_pos.mpr hne
    have hlt : ¬ (k + 1 < 10) := by omega
    rw [decimal, if_neg hlt, List.length_append]
    simp only [List.length_singleton]
    omega

theorem appendInt_zeroPadded (n : Nat) : appendInt [] (n : Int) 2 = (zeroPadded n).data := by
  have hlen := decimal_length n
  have hrepr : (toString n).data = decimal (n + 1) n := by
    rw [decimal_eq_toDigits]; rfl
  have hneg : ¬ ((n : Int) < 0) := by omega
  unfold appendInt zeroPadded
  simp only [if_neg hneg, Int.natAbs_ofNat, List.nil_append]
  by_cases h : n < 10
  · rw [if_pos h, hlen.1 h]
    simp [hrepr]
  · rw [if_neg h]
    have h2 : 2 - (decimal (n + 1) n).length = 0 := by
      have := hlen.2 (by omega)
      omega
    rw [h2, hrepr]
    simp

theorem appendInt_twoDigits (x : Int) (h0 : 0 ≤ x) (h1 : x < 100) :
    appendInt [] x 2 = (twoDigits x.toNat).data := by
  lift x to Nat using h0
  have h : x < 100 := by exact_mod_cast h1
  simp only [Int.toNat_ofNat]
  interval_cases x <;> rfl

theorem month_abbreviation (m : Int) (h0 : 1 ≤ m) (h1 : m ≤ 12) :
    (Month.String m).toList.take 3 = (monthAbbreviations.getD (m - 1).toNat "").data := by
  interval_cases m <;> rfl

theorem layout_chunks (name : String) (offset : Int) (abs : Nat) :
    appendFormatLoop name offset abs ("02 Jan 06 15:04 MST".length) []
        "02 Jan 06 15:04 MST".toList =
      appendStd name offset abs .stdTZ
        (appendStd name offset abs .stdZeroMinute
          (appendStd name offset abs .stdHour
            (appendStd name offset abs .stdYear
              (appendStd name offset abs .stdMonth
                (appendStd name offset abs .stdZeroDay [] ++ [' ']) ++ [' ']) ++ [' ']) ++ [':'])
          ++ [' ']) := by
  rfl

theorem appendStd_stdZeroDay (name : String) (offset : Int) (abs : Nat) (b : List Char) :
    appendStd name offset abs .stdZeroDay b = b ++ (twoDigits (absDate abs true).2.2.1.toNat).data := by
  have h := absDate_bounds abs
  show appendInt b (absDate abs true).2.2.1 2 = _
  rw [appendInt_append, appendInt_twoDigits _ (by omega) (by omega)]

theorem appendStd_stdMonth (name : String) (offset : Int) (abs : Nat) (b : List Char) :
    appendStd name offset abs .stdMonth b =
      b ++ (monthAbbreviations.getD ((absDate abs true).2.1 - 1).toNat "").data := by
  have h := absDate_bounds abs
  show b ++ (Month.String (absDate abs true).2.1).toList.take 3 = _
  rw [month_abbreviation _ h.1 h.2.1]

theorem natAbs_eq_ite (z : Int) : (if z < 0 then -z else z) = (z.natAbs : Int) := by
  split_ifs <;> omega

theorem appendStd_stdYear (name : String) (offset : Int) (abs : Nat) (b : List Char) :
    appendStd name offset abs .stdYear b =
      b ++ (twoDigits ((absDate abs true).1.natAbs % 100)).data := by
  have hm : ((absDate abs true).1.natAbs : Int).tmod 100 =
      (((absDate abs true).1.natAbs % 100 : Nat) : Int) := (Int.ofNat_tmod _ _).symm
  show appendInt b ((if (absDate abs true).1 < 0 then -(absDate abs true).1
    else (absDate abs true).1).tmod 100) 2 = _
  rw [natAbs_eq_ite, hm, appendInt_append,
    appendInt_twoDigits _ (by omega) (by omega), Int.toNat_ofNat]

theorem appendStd_stdHour (name : String) (offset : Int) (abs : Nat) (b : List Char) :
    appendStd name offset abs .stdHour b = b ++ (twoDigits (absClock abs).1).data := by
  have h := absClock_bounds abs
  show appendInt b ((absClock abs).1 : Int) 2 = _
  rw [appendInt_append, appendInt_twoDigits _ (by omega) (by omega), Int.toNat_ofNat]

theorem appendStd_stdZeroMinute (name : String) (offset : Int) (abs : Nat) (b : List Char) :
    appendStd name offset abs .stdZeroMinute b = b ++ (twoDigits (absClock abs).2.1).data := by
  have h := absClock_bounds abs
  show appendInt b ((absClock abs).2.1 : Int) 2 = _
  rw [appendInt_append, appendInt_twoDigits _ (by omega) (by omega), Int.toNat_ofNat]

theorem appendStd_stdTZ (name : String) (offset : Int) (abs : Nat) (b : List Char) :
    appendStd name offset abs .stdTZ b =
      b ++ (if name = "" then numericOffset offset else name).data := by
  by_cases hn : name = ""
  · have hm : ((offset.tdiv 60).natAbs : Int).tmod 60 =
        (((offset.tdiv 60).natAbs % 60 : Nat) : Int) := (Int.ofNat_tmod _ _).symm
    have hd : ((offset.tdiv 60).natAbs : Int).tdiv 60 =
        (((offset.tdiv 60).natAbs / 60 : Nat) : Int) := (Int.ofNat_tdiv _ _).symm
    have key : appendStd name offset abs .stdTZ b =
        if name ≠ "" then b ++ name.toList
        else appendInt (appendInt (if offset.tdiv 60 < 0 then b ++ ['-'] else b ++ ['+'])
          ((if offset.tdiv 60 < 0 then -(offset.tdiv 60) else offset.tdiv 60).tdiv 60) 2)
          ((if offset.tdiv 60 < 0 then -(offset.tdiv 60) else offset.tdiv 60).tmod 60) 2 := rfl
    rw [key, if_neg (not_not.mpr hn), if_pos hn, natAbs_eq_ite, hm, hd, appendInt_append,
      appendInt_twoDigits _ (by omega) (by omega), appendInt_append, appendInt_zeroPadded,
      Int.toNat_ofNat]
    unfold numericOffset
    split_ifs <;> simp
  · have key : appendStd name offset abs .stdTZ b =
        if name ≠ "" then b ++ name.toList
        else appendInt (appendInt (if offset.tdiv 60 < 0 then b ++ ['-'] else b ++ ['+'])
          ((if offset.tdiv 60 < 0 then -(offset.tdiv 60) else offset.tdiv 60).tdiv 60) 2)
          ((if offset.tdiv 60 < 0 then -(offset.tdiv 60) else offset.tdiv 60).tmod 60) 2 := rfl
    rw [key, if_pos hn, if_neg hn]
    rfl

/-- The layout of the service renders every time as `layoutTimestamp`. -/
theorem Format_layout (t : Time) : t.Format "02 Jan 06 15:04 MST" = layoutTimestamp t := by
  apply String.ext
  show appendFormatLoop t.locabs.1 t.locabs.2.1 t.locabs.2.2 ("02 Jan 06 15:04 MST".length) []
    "02 Jan 06 15:04 MST".toList = _
  rw [layout_chunks, appendStd_stdTZ, appendStd_stdZeroMinute, appendStd_stdHour,
    appendStd_stdYear, appendStd_stdMonth, appendStd_stdZeroDay]
  simp [layoutTimestamp, specDateClock, Time.Date, Time.Clock, Time.Zone, Time.abs]

/-- No time is rendered as the empty string. -/
theorem Format_layout_ne_empty (t : Time) : t.Format "02 Jan 06 15:04 MST" ≠ "" := by
  rw [Format_layout]
  intro h
  have h2 := congrArg String.data h
  simp [layoutTimestamp] at h2

/-- A zone with an abbreviation is rendered as the specification words it. -/
theorem layoutTimestamp_named (t : Time) (h : t.Zone.1 ≠ "") :
    layoutTimestamp t = specTimestamp t := by
  simp [layoutTimestamp, specTimestamp, h]

end time

/-! ## Properties of the error helpers -/

namespace errors

theorem Is_self (e : error) : Is e e = true := by
  cases e <;> simp [Is]

theorem Is_Wrap (e : error) (message : String) : Is (Wrap e message) e = true := by
  simp [Wrap, Is, Is_self]

theorem Error_Wrap (e : error) (message : String) :
    (Wrap e message).Error = message ++ ": " ++ e.Error := by
  simp [Wrap, error.Error]

theorem Cause_Wrap (e : error) (message : String) : Cause (Wrap e message) = Cause e := by
  simp [Wrap, Cause]

end errors

/-! ## Properties of the service operations -/

namespace user

open errors time

/-- C1: a `Register` call whose input has an empty username or an empty
password returns an error of kind `ErrValidation` (the validation error wrapped
with a message naming the empty field), makes no collaborator call at all, so
that neither the hash service's `Encrypt` nor the repository's `Save` is
invoked, and leaves the world state as it was; this holds for every hash
service and every repository. -/
theorem Register_empty_input_rejected {σ : Type} (ErrValidation : error) (Now : σ → Time)
    (s : service σ) (dto : RegisterDTO) (st : σ)
    (h : dto.Username = "" ∨ dto.Password = "") :
    (∃ e, (Register ErrValidation Now s dto st).ret = some e ∧ Is e ErrValidation = true ∧
      Cause e = Cause ErrValidation ∧
      e = Wrap ErrValidation
        (if dto.Username = "" then "username cannot be empty" else "password cannot be empty")) ∧
    (Register ErrValidation Now s dto st).calls = [] ∧
    (∀ p, Call.Encrypt p ∉ (Register ErrValidation Now s dto st).calls) ∧
    (∀ u, Call.Save u ∉ (Register ErrValidation Now s dto st).calls) ∧
    (Register ErrValidation Now s dto st).state = st := by
  by_cases hu : dto.Username = ""
  · simp [Register, hu, Is_Wrap, Cause_Wrap]
  · rcases h with h | hp
    · exact absurd h hu
    · simp [Register, hu, hp, Is_Wrap, Cause_Wrap]

/-- Witness for C1: an empty username against the in-memory repository. -/
theorem Register_empty_input_rejected_witness :
    ((⟨"", "secret"⟩ : RegisterDTO).Username = "" ∨ (⟨"", "secret"⟩ : RegisterDTO).Password = "") ∧
    (Register exampleErrValidation exampleNow exampleService ⟨"", "secret"⟩ {}).calls = [] :=
  ⟨by decide,
    (Register_empty_input_rejected exampleErrValidation exampleNow exampleService
      ⟨"", "secret"⟩ {} (by decide)).2.1⟩

/-- C2: when the username `u` and the password `p` are non-empty and
`Encrypt(p)` succeeds with `h`, `Register` calls `Encrypt` and then `Save`
exactly once, with the `User` whose username is `u`, whose password is `h`,
whose joinedAt is the clock reading taken after hashing, and whose id and
lastLogin are zero; `Register` returns what that `Save` returns, so it succeeds
exactly when `Save` succeeds. -/
theorem Register_saves_hashed_user {σ : Type} (ErrValidation : error) (Now : σ → Time)
    (s : service σ) (dto : RegisterDTO) (st st1 : σ) (h : String)
    (hu : dto.Username ≠ "") (hp : dto.Password ≠ "")
    (hE : s.hashSvc.Encrypt dto.Password st = (.ok h, st1)) :
    (Register ErrValidation Now s dto st).calls =
      [.Encrypt dto.Password,
       .Save { ID := 0, Username := dto.Username, Password := h, JoinedAt := Now st1,
               LastLogin := { sec := 0, nsec := 0, loc := none } }] ∧
    ((Register ErrValidation Now s dto st).calls.filter
      (fun c => match c with | .Save _ => true | _ => false)).length = 1 ∧
    (Register ErrValidation Now s dto st).ret =
      (s.repo.Save { Username := dto.Username, Password := h, JoinedAt := Now st1 } st1).1 ∧
    (Register ErrValidation Now s dto st).state =
      (s.repo.Save { Username := dto.Username, Password := h, JoinedAt := Now st1 } st1).2 ∧
    ((Register ErrValidation Now s dto st).ret = none ↔
      (s.repo.Save { Username := dto.Username, Password := h, JoinedAt := Now st1 } st1).1
        = none) := by
  have key : ∀ r : Option error × σ,
      s.repo.Save { Username := dto.Username, Password := h, JoinedAt := Now st1 } st1 = r →
      (Register ErrValidation Now s dto st).calls =
        [.Encrypt dto.Password,
         .Save { Username := dto.Username, Password := h, JoinedAt := Now st1 }] ∧
      (Register ErrValidation Now s dto st).ret = r.1 ∧
      (Register ErrValidation Now s dto st).state = r.2 := by
    rintro ⟨e, st2⟩ hS
    cases e <;> simp [Register, hu, hp, hE, hS]
  obtain ⟨hc, hr, hs⟩ := key _ rfl
  refine ⟨hc, ?_, hr, hs, by rw [hr]⟩
  rw [hc]
  rfl

/-- Witness for C2: registering alice against the empty in-memory repository. -/
theorem Register_saves_hashed_user_witness :
    (⟨"alice", "secret"⟩ : RegisterDTO).Username ≠ "" ∧
    (⟨"alice", "secret"⟩ : RegisterDTO).Password ≠ "" ∧
    exampleService.hashSvc.Encrypt "secret" {} = (.ok "hash(secret)", {}) ∧
    (Register exampleErrValidation exampleNow exampleService ⟨"alice", "secret"⟩ {}).calls =
      [.Encrypt "secret",
       .Save { ID := 0, Username := "alice", Password := "hash(secret)",
               JoinedAt := exampleTime, LastLogin := { sec := 0, nsec := 0, loc := none } }] :=
  ⟨by decide, by decide, rfl,
    (Register_saves_hashed_user exampleErrValidation exampleNow exampleService
      ⟨"alice", "secret"⟩ {} {} "hash(secret)" (by decide) (by decide) rfl).1⟩

/-- C3: when the username and the password are non-empty and the hash
service's `Encrypt` fails with an error `e`, `Register` fails with an error of
kind `ErrValidation` that wraps `e`'s message (its text is that message
followed by the text of `ErrValidation`), and the only collaborator call made
is that `Encrypt`: the repository's `Save` is never invoked. -/
theorem Register_hash_failure {σ : Type} (ErrValidation : error) (Now : σ → Time)
    (s : service σ) (dto : RegisterDTO) (st st1 : σ) (e : error)
    (hu : dto.Username ≠ "") (hp : dto.Password ≠ "")
    (hE : s.hashSvc.Encrypt dto.Password st = (.error e, st1)) :
    (Register ErrValidation Now s dto st).ret = some (Wrap ErrValidation e.Error) ∧
    Is (Wrap ErrValidation e.Error) ErrValidation = true ∧
    Cause (Wrap ErrValidation e.Error) = Cause ErrValidation ∧
    (Wrap ErrValidation e.Error).Error = e.Error ++ ": " ++ ErrValidation.Error ∧
    (Register ErrValidation Now s dto st).calls = [.Encrypt dto.Password] ∧
    (∀ u, Call.Save u ∉ (Register ErrValidation Now s dto st).calls) ∧
    (Register ErrValidation Now s dto st).state = st1 := by
  simp [Register, hu, hp, hE, Is_Wrap, Cause_Wrap, Error_Wrap]

/-- Witness for C3: a password of 73 characters, which the example hash
service refuses. -/
theorem Register_hash_failure_witness :
    (⟨"alice", String.mk (List.replicate 73 'x')⟩ : RegisterDTO).Username ≠ "" ∧
    (⟨"alice", String.mk (List.replicate 73 'x')⟩ : RegisterDTO).Password ≠ "" ∧
    exampleService.hashSvc.Encrypt (String.mk (List.replicate 73 'x')) {} =
      (.error (.fundamental "password too long"), {}) ∧
    (Register exampleErrValidation exampleNow exampleService
      ⟨"alice", String.mk (List.replicate 73 'x')⟩ {}).ret =
      some (Wrap exampleErrValidation "password too long") :=
  ⟨by decide, by decide, rfl,
    (Register_hash_failure exampleErrValidation exampleNow exampleService
      ⟨"alice", String.mk (List.replicate 73 'x')⟩ {} {} (.fundamental "password too long")
      (by decide) (by decide) rfl).1⟩

/-- C4: the partial `User` that the two update operations hand to the
repository's `Update` carries the id and the one named field, every other field
at its zero value: `SetUsername` with a non-empty username sends the id and the
username (password empty, joinedAt and lastLogin the zero time), `SetLastLogin`
with a non-zero time sends the id and the lastLogin (username and password
empty, joinedAt the zero time).  In both cases this `Update` is the only
collaborator call, and the operation returns the error and leaves the world
state that the repository's `Update`, applied to that partial `User` in the
state of the call, returns. -/
theorem updates_send_only_the_named_field {σ : Type} (ErrValidation : error) (s : service σ)
    (id : Int) (st : σ) :
    (∀ dto : UpdateDTO, dto.Username ≠ "" →
      (SetUsername ErrValidation s id dto st).calls =
        [.Update { ID := id, Username := dto.Username, Password := "",
                   JoinedAt := { sec := 0, nsec := 0, loc := none },
                   LastLogin := { sec := 0, nsec := 0, loc := none } }] ∧
      (SetUsername ErrValidation s id dto st).ret =
        (s.repo.Update { ID := id, Username := dto.Username, Password := "",
                         JoinedAt := { sec := 0, nsec := 0, loc := none },
                         LastLogin := { sec := 0, nsec := 0, loc := none } } st).1 ∧
      (SetUsername ErrValidation s id dto st).state =
        (s.repo.Update { ID := id, Username := dto.Username, Password := "",
                         JoinedAt := { sec := 0, nsec := 0, loc := none },
                         LastLogin := { sec := 0, nsec := 0, loc := none } } st).2) ∧
    (∀ t : Time, t.IsZero = false →
      (SetLastLogin ErrValidation s id t st).calls =
        [.Update { ID := id, Username := "", Password := "",
                   JoinedAt := { sec := 0, nsec := 0, loc := none },
                   LastLogin := t }] ∧
      (SetLastLogin ErrValidation s id t st).ret =
        (s.repo.Update { ID := id, Username := "", Password := "",
                         JoinedAt := { sec := 0, nsec := 0, loc := none },
                         LastLogin := t } st).1 ∧
      (SetLastLogin ErrValidation s id t st).state =
        (s.repo.Update { ID := id, Username := "", Password := "",
                         JoinedAt := { sec := 0, nsec := 0, loc := none },
                         LastLogin := t } st).2) := by
  constructor
  · intro dto hu
    rcases hU : s.repo.Update { ID := id, Username := dto.Username } st with ⟨e, st1⟩
    cases e <;> simp [SetUsername, hu, hU]
  · intro t ht
    rcases hU : s.repo.Update { ID := id, LastLogin := t } st with ⟨e, st1⟩
    cases e <;> simp [SetLastLogin, ht, hU]

/-- Witness for C4: renaming the stored user 1 to bob and recording a login at
the example time, against the in-memory repository that holds alice: the
repository receives the partial user, the operation succeeds, and the stored
record changes in the named field only. -/
theorem updates_send_only_the_named_field_witness :
    ((⟨"bob"⟩ : UpdateDTO).Username ≠ "" ∧
      (SetUsername exampleErrValidation exampleService 1 ⟨"bob"⟩ exampleStored).calls =
        [.Update { ID := 1, Username := "bob", Password := "",
                   JoinedAt := { sec := 0, nsec := 0, loc := none },
                   LastLogin := { sec := 0, nsec := 0, loc := none } }] ∧
      (SetUsername exampleErrValidation exampleService 1 ⟨"bob"⟩ exampleStored).ret = none ∧
      (SetUsername exampleErrValidation exampleService 1 ⟨"bob"⟩ exampleStored).state =
        { users := [{ ID := 1, Username := "bob", Password := "hash(secret)",
                      JoinedAt := exampleTime,
                      LastLogin := { sec := 0, nsec := 0, loc := none } }],
          lastID := 1 }) ∧
    (exampleTime.IsZero = false ∧
      (SetLastLogin exampleErrValidation exampleService 1 exampleTime exampleStored).calls =
        [.Update { ID := 1, Username := "", Password := "",
                   JoinedAt := { sec := 0, nsec := 0, loc := none },
                   LastLogin := exampleTime }] ∧
      (SetLastLogin exampleErrValidation exampleService 1 exampleTime exampleStored).ret
        = none ∧
      (SetLastLogin exampleErrValidation exampleService 1 exampleTime exampleStored).state =
        { users := [{ ID := 1, Username := "alice", Password := "hash(secret)",
                      JoinedAt := exampleTime, LastLogin := exampleTime }],
          lastID := 1 }) :=
  ⟨⟨by decide,
      (updates_send_only_the_named_field exampleErrValidation exampleService 1
        exampleStored).1 ⟨"bob"⟩ (by decide)⟩,
    ⟨by decide,
      (updates_send_only_the_named_field exampleErrValidation exampleService 1
        exampleStored).2 exampleTime (by decide)⟩⟩

/-- C5: the update operations validate the shape of their input before they
touch the repository: for every id, `SetLastLogin` with a zero time and
`SetUsername` with an empty username fail with an error of kind
`ErrValidation`, make no collaborator call, so that the repository's `Update`
is never invoked, and leave the world state as it was. -/
theorem updates_validate_before_repository {σ : Type} (ErrValidation : error) (s : service σ)
    (id : Int) (st : σ) :
    (∀ t : Time, t.IsZero = true →
      (SetLastLogin ErrValidation s id t st).ret =
        some (Wrap ErrValidation "lastLogin cannot be empty") ∧
      Is (Wrap ErrValidation "lastLogin cannot be empty") ErrValidation = true ∧
      (SetLastLogin ErrValidation s id t st).calls = [] ∧
      (∀ u, Call.Update u ∉ (SetLastLogin ErrValidation s id t st).calls) ∧
      (SetLastLogin ErrValidation s id t st).state = st) ∧
    (∀ dto : UpdateDTO, dto.Username = "" →
      (SetUsername ErrValidation s id dto st).ret =
        some (Wrap ErrValidation "username cannot be empty") ∧
      Is (Wrap ErrValidation "username cannot be empty") ErrValidation = true ∧
      (SetUsername ErrValidation s id dto st).calls = [] ∧
      (∀ u, Call.Update u ∉ (SetUsername ErrValidation s id dto st).calls) ∧
      (SetUsername ErrValidation s id dto st).state = st) := by
  constructor
  · intro t ht
    simp [SetLastLogin, ht, Is_Wrap]
  · intro dto hu
    simp [SetUsername, hu, Is_Wrap]

/-- Witness for C5: the zero time and the empty username, for user 1 of the
in-memory repository. -/
theorem updates_validate_before_repository_witness :
    (({} : Time).IsZero = true ∧
      (SetLastLogin exampleErrValidation exampleService 1 {} {}).ret =
        some (Wrap exampleErrValidation "lastLogin cannot be empty")) ∧
    ((⟨""⟩ : UpdateDTO).Username = "" ∧
      (SetUsername exampleErrValidation exampleService 1 ⟨""⟩ {}).ret =
        some (Wrap exampleErrValidation "username cannot be empty")) :=
  ⟨⟨by decide,
      ((updates_validate_before_repository exampleErrValidation exampleService 1 {}).1
        {} (by decide)).1⟩,
    ⟨by decide,
      ((updates_validate_before_repository exampleErrValidation exampleService 1 {}).2
        ⟨""⟩ (by decide)).1⟩⟩

/-- C6: in each of the six operations, when the input passes validation (and,
for `Register`, hashing succeeds) and the repository call the operation makes
fails with an error `e`, the operation returns exactly `e`, not wrapped; the two
finders then return no view. -/
theorem repository_errors_pass_through {σ : Type} (ErrValidation : error) (Now : σ → Time)
    (s : service σ) (st st1 : σ) (e : error) :
    (∀ (dto : RegisterDTO) (h : String) (st0 : σ),
      dto.Username ≠ "" → dto.Password ≠ "" →
      s.hashSvc.Encrypt dto.Password st0 = (.ok h, st) →
      s.repo.Save { Username := dto.Username, Password := h, JoinedAt := Now st } st
        = (some e, st1) →
      (Register ErrValidation Now s dto st0).ret = some e) ∧
    (∀ (id : Int) (dto : UpdateDTO), dto.Username ≠ "" →
      s.repo.Update { ID := id, Username := dto.Username } st = (some e, st1) →
      (SetUsername ErrValidation s id dto st).ret = some e) ∧
    (∀ id : Int, s.repo.FindByID id st = (.error e, st1) →
      (FindByID s id st).ret = (none, some e)) ∧
    (∀ username : String, s.repo.FindByUsername username st = (.error e, st1) →
      (FindCredentialsByUsername s username st).ret = (none, some e)) ∧
    (∀ (id : Int) (t : Time), t.IsZero = false →
      s.repo.Update { ID := id, LastLogin := t } st = (some e, st1) →
      (SetLastLogin ErrValidation s id t st).ret = some e) ∧
    (∀ id : Int, s.repo.DeleteByID id st = (some e, st1) →
      (Delete s id st).ret = some e) := by
  refine ⟨?_, ?_, ?_, ?_, ?_, ?_⟩
  · intro dto h st0 hu hp hE hS
    simp [Register, hu, hp, hE, hS]
  · intro id dto hu hU
    simp [SetUsername, hu, hU]
  · intro id hF
    simp [FindByID, hF]
  · intro username hF
    simp [FindCredentialsByUsername, hF]
  · intro id t ht hU
    simp [SetLastLogin, ht, hU]
  · intro id hD
    simp [Delete, hD]

/-- Witness for C6: a duplicate registration fails with the conflict error,
and the other five operations fail with the not-found error on the empty
in-memory repository. -/
theorem repository_errors_pass_through_witness :
    (Register exampleErrValidation exampleNow exampleService ⟨"alice", "other"⟩
      exampleStored).ret = some ErrConflict ∧
    (SetUsername exampleErrValidation exampleService 7 ⟨"bob"⟩ {}).ret = some ErrNotFound ∧
    (FindByID exampleService 7 {}).ret = (none, some ErrNotFound) ∧
    (FindCredentialsByUsername exampleService "bob" {}).ret = (none, some ErrNotFound) ∧
    (SetLastLogin exampleErrValidation exampleService 7 exampleTime {}).ret
      = some ErrNotFound ∧
    (Delete exampleService 7 {}).ret = some ErrNotFound :=
  ⟨(repository_errors_pass_through exampleErrValidation exampleNow exampleService
      exampleStored exampleStored ErrConflict).1 ⟨"alice", "other"⟩ "hash(other)" exampleStored
      (by decide) (by decide) rfl rfl,
    (repository_errors_pass_through exampleErrValidation exampleNow exampleService
      {} {} ErrNotFound).2.1 7 ⟨"bob"⟩ (by decide) rfl,
    (repository_errors_pass_through exampleErrValidation exampleNow exampleService
      {} {} ErrNotFound).2.2.1 7 rfl,
    (repository_errors_pass_through exampleErrValidation exampleNow exampleService
      {} {} ErrNotFound).2.2.2.1 "bob" rfl,
    (repository_errors_pass_through exampleErrValidation exampleNow exampleService
      {} {} ErrNotFound).2.2.2.2.1 7 exampleTime (by decide) rfl,
    (repository_errors_pass_through exampleErrValidation exampleNow exampleService
      {} {} ErrNotFound).2.2.2.2.2 7 rfl⟩

/-- C7: the output of `FindByID` does not depend on the stored password or id:
whenever two repositories, in any two states, return for an id two users that
agree on username, joinedAt and lastLogin (and may differ in password and id),
`FindByID` returns the same result in both, namely the `DTO` made of the
username and the two formatted times, which are all the fields a `DTO` has. -/
theorem FindByID_hides_password_and_id {σ τ : Type} (s : service σ) (s2 : service τ)
    (id : Int) (st st1 : σ) (st2 st3 : τ) (u u2 : User)
    (hF : s.repo.FindByID id st = (.ok u, st1))
    (hF2 : s2.repo.FindByID id st2 = (.ok u2, st3))
    (hn : u.Username = u2.Username) (hj : u.JoinedAt = u2.JoinedAt)
    (hl : u.LastLogin = u2.LastLogin) :
    (FindByID s id st).ret = (FindByID s2 id st2).ret ∧
    (FindByID s id st).ret =
      (some ⟨u.Username, u.LastLogin.Format "02 Jan 06 15:04 MST",
             u.JoinedAt.Format "02 Jan 06 15:04 MST"⟩, none) ∧
    (∀ d : DTO, d = ⟨d.Username, d.LastLogin, d.JoinedAt⟩) := by
  simp [FindByID, hF, hF2, hn, hj, hl]

/-- Witness for C7: two stored users that differ in the password only. -/
theorem FindByID_hides_password_and_id_witness :
    (FindByID exampleService 1 exampleStored).ret =
      (FindByID exampleService 1 exampleStoredOther).ret :=
  (FindByID_hides_password_and_id exampleService exampleService 1
    exampleStored exampleStored exampleStoredOther exampleStoredOther
    { ID := 1, Username := "alice", Password := "hash(secret)", JoinedAt := exampleTime }
    { ID := 1, Username := "alice", Password := "hash(hunter2)", JoinedAt := exampleTime }
    rfl rfl rfl rfl rfl).1

/-- C8: when the repository's `FindByUsername` returns a user `U`,
`FindCredentialsByUsername` succeeds with the `CredentialsDTO` whose id,
username and password are those of `U` (the stored hash as it is), whose
joinedAt is the formatted `U.JoinedAt` and whose lastLogin is the formatted
`U.LastLogin`; that lookup is its only collaborator call. -/
theorem FindCredentialsByUsername_maps_user {σ : Type} (s : service σ) (username : String)
    (st st1 : σ) (U : User)
    (hF : s.repo.FindByUsername username st = (.ok U, st1)) :
    (FindCredentialsByUsername s username st).ret =
      (some { ID := U.ID, Username := U.Username, Password := U.Password,
              JoinedAt := U.JoinedAt.Format "02 Jan 06 15:04 MST",
              LastLogin := U.LastLogin.Format "02 Jan 06 15:04 MST" }, none) ∧
    (FindCredentialsByUsername s username st).calls = [.FindByUsername username] ∧
    (FindCredentialsByUsername s username st).state = st1 := by
  simp [FindCredentialsByUsername, hF]

/-- Witness for C8: looking up alice in the in-memory repository. -/
theorem FindCredentialsByUsername_maps_user_witness :
    exampleService.repo.FindByUsername "alice" exampleStored =
      (.ok { ID := 1, Username := "alice", Password := "hash(secret)",
             JoinedAt := exampleTime }, exampleStored) ∧
    (FindCredentialsByUsername exampleService "alice" exampleStored).ret =
      (some { ID := 1, Username := "alice", Password := "hash(secret)",
              JoinedAt := exampleTime.Format "02 Jan 06 15:04 MST",
              LastLogin := ({} : Time).Format "02 Jan 06 15:04 MST" }, none) :=
  ⟨rfl,
    (FindCredentialsByUsername_maps_user exampleService "alice" exampleStored exampleStored
      { ID := 1, Username := "alice", Password := "hash(secret)", JoinedAt := exampleTime }
      rfl).1⟩

/-- C9 (counterexample): a stored joinedAt whose zone has no abbreviation is
rendered by `FindByID` with the numeric offset `+0100` in the place of the
timezone abbreviation, which is not the rendering `DD Mon YY HH:MM TZ` with the
(empty) abbreviation. -/
theorem timestamp_without_zone_abbreviation :
    (FindByID exampleService 1 exampleStoredUnnamedZone).ret =
      (some ⟨"alice", "01 Jan 01 00:00 UTC", "02 Jan 06 16:04 +0100"⟩, none) ∧
    specTimestamp exampleTimeUnnamedZone = "02 Jan 06 16:04 " ∧
    exampleTimeUnnamedZone.Format "02 Jan 06 15:04 MST" ≠
      specTimestamp exampleTimeUnnamedZone := by
  decide

/-- C9 (amended): for every stored user that the repository returns, each
timestamp field in the output of `FindByID` and `FindCredentialsByUsername` is
the stored time rendered as zero-padded two-digit day, three-letter month
abbreviation, two-digit year, zero-padded 24-hour hour and minute (day 1 to 31,
month 1 to 12, hour below 24, minute below 60; seconds dropped), and then the
timezone abbreviation when the zone of the stored time has one, or else the
numeric offset of the zone as sign, hours and minutes; the parts are separated
by single spaces (a colon between hour and minute).  For a zone with an
abbreviation this is the rendering `DD Mon YY HH:MM TZ`, and the time
2006-01-02T15:04:00 UTC renders as `02 Jan 06 15:04 UTC`. -/
theorem timestamps_rendered_in_fixed_layout {σ : Type} (s : service σ) (st st1 : σ)
    (u : User) :
    (∀ id : Int, s.repo.FindByID id st = (.ok u, st1) →
      (FindByID s id st).ret =
        (some ⟨u.Username, layoutTimestamp u.LastLogin, layoutTimestamp u.JoinedAt⟩, none)) ∧
    (∀ username : String, s.repo.FindByUsername username st = (.ok u, st1) →
      (FindCredentialsByUsername s username st).ret =
        (some ⟨u.ID, u.Username, u.Password, layoutTimestamp u.JoinedAt,
               layoutTimestamp u.LastLogin⟩, none)) ∧
    (∀ t : Time, t.Zone.1 ≠ "" → layoutTimestamp t = specTimestamp t) ∧
    (∀ t : Time, 1 ≤ t.Date.2.2 ∧ t.Date.2.2 ≤ 31 ∧ 1 ≤ t.Date.2.1 ∧ t.Date.2.1 ≤ 12 ∧
      t.Clock.1 < 24 ∧ t.Clock.2.1 < 60) ∧
    (exampleTime.Date = (2006, 1, 2) ∧ exampleTime.Clock = (15, 4, 0) ∧
      exampleTime.Zone = ("UTC", 0) ∧
      exampleTime.Format "02 Jan 06 15:04 MST" = "02 Jan 06 15:04 UTC") := by
  refine ⟨?_, ?_, ?_, ?_, ?_⟩
  · intro id hF
    simp [FindByID, hF, Format_layout]
  · intro username hF
    simp [FindCredentialsByUsername, hF, Format_layout]
  · intro t ht
    exact layoutTimestamp_named t ht
  · intro t
    have hd := absDate_bounds t.abs
    have hc := absClock_bounds t.abs
    exact ⟨hd.2.2.1, hd.2.2.2, hd.1, hd.2.1, hc.1, hc.2⟩
  · decide

/-- Witness for C9: the stored alice of the in-memory repository, looked up by
id and by username. -/
theorem timestamps_rendered_in_fixed_layout_witness :
    exampleService.repo.FindByID 1 exampleStoredUnnamedZone =
      (.ok { ID := 1, Username := "alice", Password := "hash(secret)",
             JoinedAt := exampleTimeUnnamedZone }, exampleStoredUnnamedZone) ∧
    (FindByID exampleService 1 exampleStoredUnnamedZone).ret =
      (some ⟨"alice", layoutTimestamp {}, layoutTimestamp exampleTimeUnnamedZone⟩, none) ∧
    (exampleTime.Zone.1 ≠ "" ∧ layoutTimestamp exampleTime = specTimestamp exampleTime) :=
  ⟨rfl,
    (timestamps_rendered_in_fixed_layout exampleService exampleStoredUnnamedZone
      exampleStoredUnnamedZone
      { ID := 1, Username := "alice", Password := "hash(secret)",
        JoinedAt := exampleTimeUnnamedZone }).1 1 rfl,
    by decide,
    (timestamps_rendered_in_fixed_layout exampleService exampleStoredUnnamedZone
      exampleStoredUnnamedZone {}).2.2.1 exampleTime (by decide)⟩

/-- C10 (counterexample): after `Register("alice","secret")` succeeds against
the empty in-memory repository, `FindCredentialsByUsername("alice")` returns
id 1, username alice and the hashed password, but its lastLogin is the rendered
zero time `01 Jan 01 00:00 UTC`, not the empty string. -/
theorem never_logged_in_lastLogin_not_empty :
    (Register exampleErrValidation exampleNow exampleService ⟨"alice", "secret"⟩ {}).ret = none ∧
    (FindCredentialsByUsername exampleService "alice"
      (Register exampleErrValidation exampleNow exampleService ⟨"alice", "secret"⟩ {}).state).ret =
      (some ⟨1, "alice", "hash(secret)", "02 Jan 06 15:04 UTC", "01 Jan 01 00:00 UTC"⟩, none) ∧
    (FindCredentialsByUsername exampleService "alice"
      (Register exampleErrValidation exampleNow exampleService ⟨"alice", "secret"⟩
        {}).state).ret.1.map CredentialsDTO.LastLogin ≠ some "" := by
  decide

/-- C10 (amended): when `Encrypt("secret")` succeeds with `h`, the repository
saves the registered user and then finds it under the username alice with the
id 1 it assigned, `Register("alice","secret")` succeeds and
`FindCredentialsByUsername("alice")` then returns id 1, username alice, the
password `h`, the joinedAt formatted from the registration time, and the
lastLogin `01 Jan 01 00:00 UTC`: a user who has never logged in has the zero
time as lastLogin, and it is rendered like every other time (no time is
rendered as the empty string). -/
theorem never_logged_in_lastLogin_zero_time {σ : Type} (ErrValidation : error)
    (Now : σ → Time) (s : service σ) (st st1 st2 st3 : σ) (h : String)
    (hE : s.hashSvc.Encrypt "secret" st = (.ok h, st1))
    (hS : s.repo.Save { Username := "alice", Password := h, JoinedAt := Now st1 } st1
      = (none, st2))
    (hF : s.repo.FindByUsername "alice" st2 =
      (.ok { ID := 1, Username := "alice", Password := h, JoinedAt := Now st1 }, st3)) :
    (Register ErrValidation Now s ⟨"alice", "secret"⟩ st).ret = none ∧
    (Register ErrValidation Now s ⟨"alice", "secret"⟩ st).state = st2 ∧
    (FindCredentialsByUsername s "alice"
      (Register ErrValidation Now s ⟨"alice", "secret"⟩ st).state).ret =
      (some { ID := 1, Username := "alice", Password := h,
              JoinedAt := (Now st1).Format "02 Jan 06 15:04 MST",
              LastLogin := "01 Jan 01 00:00 UTC" }, none) ∧
    (∀ t : Time, t.Format "02 Jan 06 15:04 MST" ≠ "") := by
  have hz : ({} : Time).Format "02 Jan 06 15:04 MST" = "01 Jan 01 00:00 UTC" := by decide
  have hr : Register ErrValidation Now s ⟨"alice", "secret"⟩ st =
      ⟨none, st2, [.Encrypt "secret",
        .Save { Username := "alice", Password := h, JoinedAt := Now st1 }]⟩ := by
    simp [Register, hE, hS]
  refine ⟨by rw [hr], by rw [hr], ?_, Format_layout_ne_empty⟩
  rw [hr]
  simp [FindCredentialsByUsername, hF, hz]

/-- Witness for C10: the example hash service and the in-memory repository,
starting empty. -/
theorem never_logged_in_lastLogin_zero_time_witness :
    exampleService.hashSvc.Encrypt "secret" {} = (.ok "hash(secret)", {}) ∧
    exampleService.repo.Save
      { Username := "alice", Password := "hash(secret)", JoinedAt := exampleNow {} } {}
      = (none, exampleStored) ∧
    exampleService.repo.FindByUsername "alice" exampleStored =
      (.ok { ID := 1, Username := "alice", Password := "hash(secret)",
             JoinedAt := exampleNow {} }, exampleStored) ∧
    (FindCredentialsByUsername exampleService "alice"
      (Register exampleErrValidation exampleNow exampleService ⟨"alice", "secret"⟩ {}).state).ret =
      (some { ID := 1, Username := "alice", Password := "hash(secret)",
              JoinedAt := (exampleNow {}).Format "02 Jan 06 15:04 MST",
              LastLogin := "01 Jan 01 00:00 UTC" }, none) :=
  ⟨rfl, rfl, rfl,
    (never_logged_in_lastLogin_zero_time exampleErrValidation exampleNow exampleService
      {} {} exampleStored exampleStored "hash(secret)" rfl rfl rfl).2.2.1⟩

end user
